import Mathlib

/-!
# Verification of the fizban range-to-pixel transform

Shallow embedding of the core of the `fizban` scroll-effects library
(`src/view.js`, `src/controller.js`, and the built controller in
`dist/index.cjs`) in Lean 4, with theorems settling the specification
claims about it.

JavaScript numbers are modelled as rationals (`ℚ`).  The only places where
floating-point specialness matters for the code under study are
`NaN`/`undefined` propagation (modelled with `Option`) and the `| 0`
coercion (truncation toward zero followed by a signed 32-bit wrap),
which are modelled explicitly below.
-/

namespace Fizban

/-- Truncation toward zero of a rational, as performed by JavaScript's
`ToInt32` before the 32-bit wrap: `trunc q = sign q * ⌊|q|⌋`. -/
def jsTrunc (q : ℚ) : ℤ := if 0 ≤ q then ⌊q⌋ else -⌊-q⌋

/-- Signed 32-bit wrap of an integer, the second half of JavaScript's
`ToInt32` (applied by the `| 0` bitwise-or coercion). -/
def jsToInt32 (n : ℤ) : ℤ := (n + 2 ^ 31) % 2 ^ 32 - 2 ^ 31

/-- An element's absolute layout rectangle along the scroll axis
(`rect = {start, end}` in `view.js`; `end` is a Lean keyword, so the field
is called `end_`). -/
structure Rect where
  start : ℚ
  end_ : ℚ
deriving Repr

/-- A range descriptor `{name, offset, add}`.  `offset` is optional in the
source (destructured with default `0` inside `transformRangeToPosition`,
but used undefaulted at the interpolation sites); `add` is an optional
absolute-length string. -/
structure RangeOffset where
  name : String
  offset : Option ℚ
  add : Option String
deriving Repr

/-- The `if`/`else if` chain of `transformRangeToPosition` (view.js:54-78)
computing `startPosition` and `duration` for a range name.  An
unrecognized name leaves both `undefined`, modelled by `none`. -/
def rangeStartDuration (name : String) (viewportSize : ℚ) (rect : Rect) :
    Option (ℚ × ℚ) :=
  let start := rect.start
  let end_ := rect.end_
  let height := end_ - start
  if name = "entry" then
    some (start - viewportSize, min viewportSize height)
  else if name = "entry-crossing" then
    some (start - viewportSize, height)
  else if name = "contain" then
    -- it's either VH - height OR height - VH; the absolute value of the difference
    some (min (end_ - viewportSize) start, |viewportSize - height|)
  else if name = "exit" then
    some (max start (end_ - viewportSize), min viewportSize height)
  else if name = "exit-crossing" then
    some (start, height)
  else if name = "cover" then
    some (start - viewportSize, height + viewportSize)
  else
    none

/-- Embedding of `transformRangeToPosition(range, viewportSize, rect)` (view.js:46-81).
Returns `(startPosition + percentage * duration) | 0`; when the name is
unrecognized the sum is `NaN` and `NaN | 0` is `0`. -/
def transformRangeToPosition (range : RangeOffset) (viewportSize : ℚ)
    (rect : Rect) : ℤ :=
  let offset := range.offset.getD 0
  let percentage := offset / 100
  match rangeStartDuration range.name viewportSize rect with
  | some (startPosition, duration) =>
      jsToInt32 (jsTrunc (startPosition + percentage * duration))
  | none => 0

/-- The computed-style fields read by the layout walker
(`position`, `top`, `bottom`, `left`, `right`, `containerType`). -/
structure Style where
  position : String
  top : String
  bottom : String
  left : String
  right : String
  containerType : String
deriving Repr, DecidableEq

/-- A DOM element as seen by the walker: computed style, the four offset
metrics, and the `offsetParent` link.  Modelling the parent link as an
inductive subterm makes ancestor chains finite by construction (the
source would loop forever on a cyclic chain, which real DOM trees do not
have).  A recursive type cannot be a `structure`, so projections are
defined by hand below. -/
inductive Element where
  | mk (style : Style) (offsetLeft offsetTop offsetWidth offsetHeight : ℚ)
      (offsetParent : Option Element)

/-- Structural equality on elements, standing in for JavaScript's
reference equality in the `parent === root` test of the layout walk. -/
def Element.beq : Element → Element → Bool
  | .mk s1 l1 t1 w1 h1 p1, .mk s2 l2 t2 w2 h2 p2 =>
    s1 = s2 && l1 = l2 && t1 = t2 && w1 = w2 && h1 = h2 &&
      match p1, p2 with
      | none, none => true
      | some a, some b => Element.beq a b
      | _, _ => false

def Element.style : Element → Style
  | .mk s _ _ _ _ _ => s

def Element.offsetLeft : Element → ℚ
  | .mk _ l _ _ _ _ => l

def Element.offsetTop : Element → ℚ
  | .mk _ _ t _ _ _ => t

def Element.offsetWidth : Element → ℚ
  | .mk _ _ _ w _ _ => w

def Element.offsetHeight : Element → ℚ
  | .mk _ _ _ _ h _ => h

def Element.offsetParent : Element → Option Element
  | .mk _ _ _ _ _ p => p

/-- Embedding of `(isHorizontal ? e.offsetWidth : e.offsetHeight) || 0`; the `|| 0`
guards against `undefined`/`NaN`, which do not arise in the rational
model. -/
def elemSize (isHorizontal : Bool) (e : Element) : ℚ :=
  if isHorizontal then e.offsetWidth else e.offsetHeight

/-- The sticky offsets captured from an element's style: `start` is the
scroll-axis `top`/`left` value, `end_` the `bottom`/`right` value; each is
present only when its style value parses to a number. -/
structure StickyOffsets where
  start : Option ℚ
  end_ : Option ℚ
deriving Repr, DecidableEq

/-- One node of the offset tree built by `getTransformedScene`:
`{element, offset, sticky}`.  (The subject node in the source also
carries `size` and `style` fields, but `computeStickinessIntoFullRange`
never reads them, so they are omitted.) -/
structure OffsetNode where
  element : Element
  offset : ℚ
  sticky : Option StickyOffsets

/-- A working scroll range `{start, end}` (`newAbsoluteRange` in the
source). -/
structure AbsRange where
  start : ℚ
  end_ : ℚ
deriving Repr, DecidableEq

/-- The `'end' in sticky` branch of the `computeStickinessIntoFullRange`
loop body (view.js:96-124).  Runs only when the node has a preceding tree
node (`offsetTree[index - 1]?.element`); note that its
`isInsideDuration` test compares against the ORIGINAL
`absoluteEndOffset` argument, not the current working range. -/
def stickyStepEnd (viewportSize : ℚ) (isHorizontal : Bool)
    (absoluteEndOffset : ℚ) (parent : Option Element) (node : OffsetNode)
    (stickyEnd : ℚ) (accumulatedOffset : ℚ) (range : AbsRange) : AbsRange :=
  match parent with
  | none => range
  | some _ =>
    let elementSize := elemSize isHorizontal node.element
    let offsetFromViewEnd := elementSize + stickyEnd - viewportSize
    let stuckStart := accumulatedOffset + offsetFromViewEnd - node.offset
    if stuckStart < range.start then
      -- isBeforeStart: extraOffset added to both end and start
      ⟨range.start + node.offset, range.end_ + node.offset⟩
    else if stuckStart ≤ absoluteEndOffset then
      -- isInsideDuration: extraOffset added to end only
      ⟨range.start, range.end_ + node.offset⟩
    else
      range

/-- The `'start' in sticky` branch of the loop body (view.js:126-153).
Its `isInsideDuration` test uses the CURRENT working range's end, and on
a hit the `extraOffset` is also added to `accumulatedOffset`. -/
def stickyStepStart (isHorizontal : Bool) (parent : Option Element)
    (node : OffsetNode) (stickyStart : ℚ) (accumulatedOffset : ℚ)
    (range : AbsRange) : ℚ × AbsRange :=
  let stuckStart := accumulatedOffset - stickyStart
  match parent with
  | none => (accumulatedOffset, range)
  | some p =>
    let extraOffset :=
      elemSize isHorizontal p - (node.offset + elemSize isHorizontal node.element)
    if stuckStart < range.start then
      (accumulatedOffset + extraOffset,
        ⟨range.start + extraOffset, range.end_ + extraOffset⟩)
    else if stuckStart ≤ range.end_ then
      (accumulatedOffset + extraOffset, ⟨range.start, range.end_ + extraOffset⟩)
    else
      (accumulatedOffset, range)

/-- One full iteration of the `offsetTree.forEach` loop: add the node's
own offset to the accumulator, then apply the sticky-end and sticky-start
branches in source order. -/
def stickyStep (viewportSize : ℚ) (isHorizontal : Bool)
    (absoluteEndOffset : ℚ) (parent : Option Element) (node : OffsetNode)
    (st : ℚ × AbsRange) : ℚ × AbsRange :=
  let accumulatedOffset := st.1 + node.offset
  let range := st.2
  match node.sticky with
  | none => (accumulatedOffset, range)
  | some sticky =>
    let range :=
      match sticky.end_ with
      | some se =>
          stickyStepEnd viewportSize isHorizontal absoluteEndOffset parent node
            se accumulatedOffset range
      | none => range
    match sticky.start with
    | some ss =>
        stickyStepStart isHorizontal parent node ss accumulatedOffset range
    | none => (accumulatedOffset, range)

/-- The `forEach` loop of `computeStickinessIntoFullRange`, threading the
previous node's element (the source reads it as
`offsetTree[index - 1]?.element`). -/
def stickyGo (viewportSize : ℚ) (isHorizontal : Bool)
    (absoluteEndOffset : ℚ) :
    Option Element → List OffsetNode → ℚ × AbsRange → ℚ × AbsRange
  | _, [], st => st
  | prev, node :: rest, st =>
      stickyGo viewportSize isHorizontal absoluteEndOffset (some node.element)
        rest (stickyStep viewportSize isHorizontal absoluteEndOffset prev node st)

/-- Embedding of `computeStickinessIntoFullRange(offsetTree, absoluteStartOffset,
absoluteEndOffset, viewportSize, isHorizontal)` (view.js:83-158). -/
def computeStickinessIntoFullRange (offsetTree : List OffsetNode)
    (absoluteStartOffset absoluteEndOffset viewportSize : ℚ)
    (isHorizontal : Bool) : AbsRange :=
  (stickyGo viewportSize isHorizontal absoluteEndOffset none offsetTree
    (0, ⟨absoluteStartOffset, absoluteEndOffset⟩)).2

/-! ## Absolute-length string parsing (`transformAbsoluteOffsetToNumber`)

The source works with JavaScript regular expressions; here the same
patterns are implemented as recursive character-list parsers.  `\s` is
modelled by `Char.isWhitespace` (the inputs of interest are ASCII). -/

/-- Drop a `\s*` run. -/
def dropWs (l : List Char) : List Char := l.dropWhile Char.isWhitespace

/-- Split a list into its maximal leading digit run and the rest
(the `\d+` / `\d*` part of the patterns). -/
def takeDigits : List Char → List Char × List Char
  | [] => ([], [])
  | c :: cs =>
    if c.isDigit then (c :: (takeDigits cs).1, (takeDigits cs).2)
    else ([], c :: cs)

theorem takeDigits_append (l : List Char) :
    (takeDigits l).1 ++ (takeDigits l).2 = l := by
  induction l with
  | nil => rfl
  | cons c cs ih =>
    simp only [takeDigits]
    split
    · simpa using ih
    · simp

/-- Numeric value of a digit character. -/
def digitVal (c : Char) : ℕ := c.toNat - '0'.toNat

/-- Value of a digit run, most significant digit first. -/
def digitsToNat (l : List Char) : ℕ :=
  l.foldl (fun acc c => 10 * acc + digitVal c) 0

/-- JavaScript's `parseInt(s)` with the default radix: skip leading
whitespace, read an optional sign and then the maximal digit prefix,
ignore everything after it; `NaN` (here `none`) when no digit is found. -/
def jsParseInt (s : String) : Option ℤ :=
  match dropWs s.toList with
  | '-' :: r =>
    match takeDigits r with
    | ([], _) => none
    | (ds, _) => some (-(digitsToNat ds : ℤ))
  | '+' :: r =>
    match takeDigits r with
    | ([], _) => none
    | (ds, _) => some ((digitsToNat ds : ℤ))
  | l =>
    match takeDigits l with
    | ([], _) => none
    | (ds, _) => some ((digitsToNat ds : ℤ))

/-- The test `/^-?\d+<unit>$/.test(s)`. -/
def matchesIntUnit (unit : List Char) (s : String) : Bool :=
  let l := match s.toList with
    | '-' :: r => r
    | l => l
  decide ((takeDigits l).1 ≠ []) && decide ((takeDigits l).2 = unit)

/-- The unit alternation `((px)|(vh)|(vw)|(cqh)|(cqw))`, returning the
matched unit and the rest of the input. -/
def parseUnit : List Char → Option (List Char × List Char)
  | 'p' :: 'x' :: r => some (['p', 'x'], r)
  | 'v' :: 'h' :: r => some (['v', 'h'], r)
  | 'v' :: 'w' :: r => some (['v', 'w'], r)
  | 'c' :: 'q' :: 'h' :: r => some (['c', 'q', 'h'], r)
  | 'c' :: 'q' :: 'w' :: r => some (['c', 'q', 'w'], r)
  | _ => none

theorem parseUnit_append {l u r : List Char} (h : parseUnit l = some (u, r)) :
    u ++ r = l := by
  unfold parseUnit at h
  split at h <;> simp_all
  all_goals obtain ⟨rfl, rfl⟩ := h
  all_goals simp

/-- Pattern `\d+((px)|(vh)|(vw)|(cqh)|(cqw))` (no sign), returning the matched
text and the rest. -/
def parseLenNoSign (l : List Char) : Option (List Char × List Char) :=
  if (takeDigits l).1 = [] then none
  else
    match parseUnit (takeDigits l).2 with
    | some (u, r2) => some ((takeDigits l).1 ++ u, r2)
    | none => none

theorem parseLenNoSign_append {l t r : List Char}
    (h : parseLenNoSign l = some (t, r)) : t ++ r = l := by
  unfold parseLenNoSign at h
  split at h
  · simp at h
  · split at h
    · rename_i u r2 hu
      simp only [Option.some.injEq, Prod.mk.injEq] at h
      obtain ⟨rfl, rfl⟩ := h
      rw [List.append_assoc, parseUnit_append hu, takeDigits_append]
    · simp at h

/-- A length token `-?\d+((px)|(vh)|(vw)|(cqh)|(cqw))`, returning the
matched text and the rest. -/
def parseLen : List Char → Option (List Char × List Char)
  | '-' :: l => (parseLenNoSign l).map fun p => ('-' :: p.1, p.2)
  | l => parseLenNoSign l

theorem parseLen_append {l t r : List Char} (h : parseLen l = some (t, r)) :
    t ++ r = l := by
  unfold parseLen at h
  split at h
  · rename_i l'
    cases hp : parseLenNoSign l' with
    | none => rw [hp] at h; simp at h
    | some p =>
      rw [hp] at h
      simp only [Option.map_some', Option.some.injEq, Prod.mk.injEq] at h
      obtain ⟨rfl, rfl⟩ := h
      simpa using parseLenNoSign_append hp
  · exact parseLenNoSign_append h

theorem parseLen_rest_length {l t r : List Char}
    (h : parseLen l = some (t, r)) : r.length ≤ l.length := by
  have := parseLen_append h
  subst this
  simp

theorem parseLen_token_length {l t r : List Char}
    (h : parseLen l = some (t, r)) : t.length ≤ l.length := by
  have := parseLen_append h
  subst this
  simp

theorem dropWs_length (l : List Char) : (dropWs l).length ≤ l.length :=
  (List.dropWhile_suffix Char.isWhitespace).sublist.length_le

/-- The `calc(<len> + <len>)` pattern
`/^calc\s*\(\s*LEN\s*\+\s*LEN\s*\)\s*$/`, returning the two captured
length tokens (capture groups 1 and 8 of the source regex). -/
def parseOffsetCalcChars (l : List Char) : Option (List Char × List Char) :=
  match l with
  | 'c' :: 'a' :: 'l' :: 'c' :: r =>
    match dropWs r with
    | '(' :: r1 =>
      match parseLen (dropWs r1) with
      | some (len1, r2) =>
        match dropWs r2 with
        | '+' :: r3 =>
          match parseLen (dropWs r3) with
          | some (len2, r4) =>
            match dropWs r4 with
            | ')' :: r5 => if dropWs r5 = [] then some (len1, len2) else none
            | _ => none
          | none => none
        | _ => none
      | none => none
    | _ => none
  | _ => none

theorem parseOffsetCalcChars_lengths {l a b : List Char}
    (h : parseOffsetCalcChars l = some (a, b)) :
    a.length < l.length ∧ b.length < l.length := by
  unfold parseOffsetCalcChars at h
  split at h
  case h_2 => simp at h
  case h_1 r =>
    have hr : (dropWs r).length ≤ r.length := dropWs_length r
    split at h
    case h_2 => simp at h
    case h_1 r1 h1 =>
      have hr1 : r1.length < r.length := by
        have h1l := congrArg List.length h1
        simp only [List.length_cons] at h1l
        omega
      split at h
      case h_2 => simp at h
      case h_1 p len1 r2 h2 =>
        have hlen1 : len1.length ≤ r1.length :=
          le_trans (parseLen_token_length h2) (dropWs_length r1)
        have hr2 : r2.length ≤ r1.length :=
          le_trans (parseLen_rest_length h2) (dropWs_length r1)
        split at h
        case h_2 => simp at h
        case h_1 r3 h3 =>
          have hr3 : r3.length < r2.length := by
            have h3l := congrArg List.length h3
            simp only [List.length_cons] at h3l
            have := dropWs_length r2
            omega
          split at h
          case h_2 => simp at h
          case h_1 q len2 r4 h4 =>
            have hlen2 : len2.length ≤ r3.length :=
              le_trans (parseLen_token_length h4) (dropWs_length r3)
            split at h
            case h_2 => simp at h
            case h_1 r5 h5 =>
              split at h
              · simp only [Option.some.injEq, Prod.mk.injEq] at h
                obtain ⟨rfl, rfl⟩ := h
                simp only [List.length_cons]
                omega
              · simp at h

/-- The viewport dimensions used to resolve `vh`/`vw` units. -/
structure AbsoluteOffsetContext where
  viewportWidth : ℚ
  viewportHeight : ℚ
deriving Repr

/-- Embedding of `transformAbsoluteOffsetToNumber(offsetString, absoluteOffsetContext,
container)` (view.js:20-36), with `parseOffsetCalc` (view.js:7-10)
inlined as the recursive `calc` branch (in the source `parseOffsetCalc`
calls `transformAbsoluteOffsetToNumber` back on the two captured
`<len>` tokens). -/
def transformAbsoluteOffsetToNumber (offsetString : Option String)
    (ctx : AbsoluteOffsetContext) (container : Element) : ℚ :=
  match offsetString with
  | none => 0
  | some s =>
    if s = "" then 0
    else if matchesIntUnit ['p', 'x'] s then
      ((jsParseInt s).getD 0 : ℚ)
    else if matchesIntUnit ['v', 'h'] s then
      ((jsParseInt s).getD 0 : ℚ) * ctx.viewportHeight / 100
    else if matchesIntUnit ['v', 'w'] s then
      ((jsParseInt s).getD 0 : ℚ) * ctx.viewportWidth / 100
    else if matchesIntUnit ['c', 'q', 'h'] s then
      ((jsParseInt s).getD 0 : ℚ) * container.offsetHeight / 100
    else if matchesIntUnit ['c', 'q', 'w'] s then
      ((jsParseInt s).getD 0 : ℚ) * container.offsetWidth / 100
    else
      match hcalc : parseOffsetCalcChars s.toList with
      | some (len1, len2) =>
          transformAbsoluteOffsetToNumber (some (String.mk len1)) ctx container
          + transformAbsoluteOffsetToNumber (some (String.mk len2)) ctx container
      | none => ((jsParseInt s).getD 0 : ℚ)
termination_by match offsetString with
  | some s => s.length
  | none => 0
decreasing_by
  · exact (parseOffsetCalcChars_lengths hcalc).1
  · exact (parseOffsetCalcChars_lengths hcalc).2

/-! ## Scenes and `transformSceneRangesToOffsets` -/

/-- A scene's `start`/`end` field: absent, a plain pixel number, or a
range descriptor; `nan` models a `NaN` produced by arithmetic on a
non-number. -/
inductive SceneBound where
  | undef
  | num (value : ℚ)
  | range (r : RangeOffset)
  | nan
deriving Repr

/-- A scene's `duration` field: absent, a pixel length, or a range
name. -/
inductive SceneDuration where
  | undef
  | num (value : ℚ)
  | str (name : String)
deriving Repr

/-- A scroll scene.  `effect` is an opaque callback payload (the
transform only carries it through), hence the type parameter. -/
structure Scene (α : Type) where
  effect : α
  start : SceneBound
  end_ : SceneBound
  duration : SceneDuration
  startRange : Option RangeOffset
  endRange : Option RangeOffset
  viewSource : Option Element
  groupId : Option String
  disabled : Bool
  index : ℕ
  isFixed : Bool

/-- JavaScript `startOffset + duration` when `startOffset` may not be a
number: adding a number to `undefined` or to an object yields `NaN`. -/
def boundPlus : SceneBound → ℚ → SceneBound
  | .num s, d => .num (s + d)
  | _, _ => .nan

/-- The `startRange || start?.name` selection (view.js:195-196): an
existing `startRange` wins, otherwise `start` itself if it is an object
with a truthy (non-empty) `name`. -/
def effectiveStartRange {α : Type} (scene : Scene α) : Option RangeOffset :=
  match scene.startRange with
  | some r => some r
  | none =>
    match scene.start with
    | .range r => if r.name = "" then none else some r
    | _ => none

/-- The `endRange || end?.name` selection (view.js:207-208). -/
def effectiveEndRange {α : Type} (scene : Scene α) : Option RangeOffset :=
  match scene.endRange with
  | some r => some r
  | none =>
    match scene.end_ with
    | .range r => if r.name = "" then none else some r
    | _ => none

/-- The shared body of the two range-offset branches
(view.js:198-204 and 210-216): resolve the named range's full 0%-100%
span, sticky-adjust it, interpolate by the requested percentage inside
the adjusted span, and add the resolved `add` length.  A missing
`offset` gives `undefined / 100 = NaN` at the interpolation site (the
source does NOT apply the `= 0` destructuring default here). -/
def resolveRangeOffset (r : RangeOffset) (rect : Rect) (viewportSize : ℚ)
    (isHorizontal : Bool) (ctx : AbsoluteOffsetContext) (container : Element)
    (offsetTree : List OffsetNode) : SceneBound :=
  let add := transformAbsoluteOffsetToNumber r.add ctx container
  let absoluteStartOffset :=
    transformRangeToPosition { r with offset := some 0 } viewportSize rect
  let absoluteEndOffset :=
    transformRangeToPosition { r with offset := some 100 } viewportSize rect
  let newAbsoluteRange := computeStickinessIntoFullRange offsetTree
    (absoluteStartOffset : ℚ) (absoluteEndOffset : ℚ) viewportSize isHorizontal
  match r.offset with
  | some o =>
      .num (newAbsoluteRange.start
        + o / 100 * (newAbsoluteRange.end_ - newAbsoluteRange.start) + add)
  | none => .nan

/-- The local variables (`startOffset`, `endOffset`, `startRange`,
`endRange`, `duration`) computed by `transformSceneRangesToOffsets`
before they are spread onto the scene copy. -/
structure ResolvedOffsets where
  start : SceneBound
  end_ : SceneBound
  startRange : Option RangeOffset
  endRange : Option RangeOffset
  duration : SceneDuration

/-- The body of `transformSceneRangesToOffsets` (view.js:172-223).
In the `typeof duration === 'string'` branch `overrideDuration` is the
span BEFORE the sticky adjustment, and `overrideDuration || duration`
falls back to the original `duration` when the span is `0`. -/
def transformSceneRangesToOffsetsCore {α : Type} (scene : Scene α) (rect : Rect)
    (viewportSize : ℚ) (isHorizontal : Bool) (ctx : AbsoluteOffsetContext)
    (container : Element) (offsetTree : List OffsetNode) : ResolvedOffsets :=
  match scene.duration with
  | .str name =>
    let startRange : RangeOffset := ⟨name, some 0, none⟩
    let endRange : RangeOffset := ⟨name, some 100, none⟩
    let startOffset := transformRangeToPosition startRange viewportSize rect
    let endOffset := transformRangeToPosition endRange viewportSize rect
    let overrideDuration : ℚ := (endOffset : ℚ) - (startOffset : ℚ)
    let newAbsoluteRange := computeStickinessIntoFullRange offsetTree
      (startOffset : ℚ) (endOffset : ℚ) viewportSize isHorizontal
    { start := .num newAbsoluteRange.start,
      end_ := .num newAbsoluteRange.end_,
      startRange := some startRange,
      endRange := some endRange,
      duration :=
        if overrideDuration = 0 then scene.duration else .num overrideDuration }
  | _ =>
    let startRange? := effectiveStartRange scene
    let endRange? := effectiveEndRange scene
    let startOffset :=
      match startRange? with
      | some r =>
          resolveRangeOffset r rect viewportSize isHorizontal ctx container
            offsetTree
      | none => scene.start
    let endOffset :=
      match endRange? with
      | some r =>
          resolveRangeOffset r rect viewportSize isHorizontal ctx container
            offsetTree
      | none =>
        match scene.duration with
        | .num d => boundPlus startOffset d
        | _ => scene.end_
    { start := startOffset, end_ := endOffset,
      startRange := startRange?, endRange := endRange?,
      duration := scene.duration }

/-- Embedding of `transformSceneRangesToOffsets(scene, rect, viewportSize,
isHorizontal, absoluteOffsetContext, container, offsetTree)`
(view.js:172-224): `{...scene, start, end, startRange, endRange,
duration}`. -/
def transformSceneRangesToOffsets {α : Type} (scene : Scene α) (rect : Rect)
    (viewportSize : ℚ) (isHorizontal : Bool) (ctx : AbsoluteOffsetContext)
    (container : Element) (offsetTree : List OffsetNode) : Scene α :=
  let res := transformSceneRangesToOffsetsCore scene rect viewportSize
    isHorizontal ctx container offsetTree
  { scene with
    start := res.start,
    end_ := res.end_,
    startRange := res.startRange,
    endRange := res.endRange,
    duration := res.duration }

/-! ## The layout walk (`getTransformedScene`) -/

/-- Embedding of `getIsContainer(style)` (view.js:232-234): falsy `containerType`
(the empty string) gives `false`, otherwise compare against
`'normal'`. -/
def getIsContainer (style : Style) : Bool :=
  if style.containerType = "" then false else style.containerType ≠ "normal"

/-- Embedding of `getIsSticky(style)` (view.js:242-244). -/
def getIsSticky (style : Style) : Bool := style.position = "sticky"

/-- Embedding of `getStickyStartOffset(style, isHorizontal)` (view.js:253-255):
`parseInt` of `left`/`top`; `none` models `NaN` (e.g. for `'auto'`). -/
def getStickyStartOffset (style : Style) (isHorizontal : Bool) : Option ℤ :=
  jsParseInt (if isHorizontal then style.left else style.top)

/-- Embedding of `getStickyEndOffset(style, isHorizontal)` (view.js:264-266). -/
def getStickyEndOffset (style : Style) (isHorizontal : Bool) : Option ℤ :=
  jsParseInt (if isHorizontal then style.right else style.bottom)

/-- Embedding of `getRectStart(element, isHorizontal, isSticky)` (view.js:275-289).
The source transiently forces `position: static` around the offset read
for sticky elements; in this model `offsetLeft`/`offsetTop` already hold
the static-layout values, so the toggle has no observable effect. -/
def getRectStart (element : Element) (isHorizontal : Bool) (_isSticky : Bool) :
    ℚ :=
  if isHorizontal then element.offsetLeft else element.offsetTop

/-- Embedding of `getStickyData(style, isHorizontal)` (view.js:291-310): a sticky
edge whose style value does not parse to a number is OMITTED, not
treated as `0`; when neither edge parses there is no sticky object at
all. -/
def getStickyData (style : Style) (isHorizontal : Bool) :
    Option StickyOffsets :=
  let s := getStickyStartOffset style isHorizontal
  let e := getStickyEndOffset style isHorizontal
  if s.isSome || e.isSome then
    some ⟨s.map fun n => (n : ℚ), e.map fun n => (n : ℚ)⟩
  else none

/-- Whether a captured sticky object has an `end` edge (the
`sticky && ('end' in sticky)` test guarding the layout-start
accumulation). -/
def stickyHasEnd : Option StickyOffsets → Bool
  | some s => s.end_.isSome
  | none => false

/-- The mutable locals of the `while (parent)` walk in
`getTransformedScene`. -/
structure WalkState where
  elementLayoutStart : ℚ
  foundContainer : Bool
  container : Option Element
  offsetTree : List OffsetNode
  isFixed : Bool

/-- The `while (parent)` loop of `getTransformedScene`
(view.js:349-389), called with the first `offsetParent`.  Reaching the
scroll root pushes a `{element, offset: 0}` terminal node and stops;
running off the top of the document marks `isFixed` from the LAST
ancestor's position. -/
def walkLoop (root element : Element) (isHorizontal : Bool) :
    Element → WalkState → WalkState
  | .mk style ol ot ow oh oparent, st =>
    let p : Element := .mk style ol ot ow oh oparent
    if Element.beq p root then
      { st with
        offsetTree := st.offsetTree ++ [⟨p, 0, none⟩],
        container := if st.foundContainer then st.container else some p,
        foundContainer := true }
    else
      let nodeStyle := style
      let isSticky := getIsSticky nodeStyle
      let isContainer := getIsContainer nodeStyle
      let sticky := if isSticky then getStickyData nodeStyle isHorizontal
        else none
      let offset := getRectStart p isHorizontal isSticky
      let st₁ :=
        { st with elementLayoutStart := st.elementLayoutStart +
            (if stickyHasEnd sticky then 0 else offset) }
      let st₂ :=
        if ¬ st₁.foundContainer ∧ isContainer = true then
          { st₁ with container := some p, foundContainer := true }
        else st₁
      let st₃ := { st₂ with offsetTree := st₂.offsetTree ++ [⟨p, offset, sticky⟩] }
      match oparent with
      | some q => walkLoop root element isHorizontal q st₃
      | none =>
        let st₄ :=
          if ¬ st₃.foundContainer then
            { st₃ with container := some element, foundContainer := true }
          else st₃
        { st₄ with isFixed := nodeStyle.position = "fixed" }

/-- Embedding of `getTransformedScene(scene, root, viewportSize, isHorizontal,
absoluteOffsetContext)` (view.js:322-406).  `none` models the
`TypeError` the source throws when `scene.viewSource` is absent.  When
the walk finds no container (subject with no `offsetParent` that is not
itself a container) the source passes `null`; that value is only
dereferenced for `cq*` units (where the source would throw), so the
subject element is substituted to keep the model total — no theorem
below depends on that corner. -/
def getTransformedScene {α : Type} (scene : Scene α) (root : Element)
    (viewportSize : ℚ) (isHorizontal : Bool) (ctx : AbsoluteOffsetContext) :
    Option (Scene α) :=
  match scene.viewSource with
  | none => none
  | some element =>
    let elementStyle := element.style
    let isElementSticky := getIsSticky elementStyle
    let elementStickiness :=
      if isElementSticky then getStickyData elementStyle isHorizontal else none
    let foundContainer := getIsContainer elementStyle
    let container0 : Option Element :=
      if foundContainer then some element else none
    let isFixed0 := elementStyle.position = "fixed"
    let elementOffset := getRectStart element isHorizontal isElementSticky
    let elementLayoutStart0 : ℚ :=
      if stickyHasEnd elementStickiness then 0 else elementOffset
    let size := if isHorizontal then element.offsetWidth else element.offsetHeight
    let st0 : WalkState :=
      { elementLayoutStart := elementLayoutStart0,
        foundContainer := foundContainer,
        container := container0,
        offsetTree := [⟨element, elementOffset, elementStickiness⟩],
        isFixed := isFixed0 }
    let st :=
      match element.offsetParent with
      | some p => walkLoop root element isHorizontal p st0
      | none => st0
    let offsetTree := st.offsetTree.reverse
    let transformed := transformSceneRangesToOffsets scene
      ⟨st.elementLayoutStart, st.elementLayoutStart + size⟩ viewportSize
      isHorizontal ctx (st.container.getD element) offsetTree
    some { transformed with isFixed := st.isFixed }

/-! ## The controller tick (`calcProgress`, `tick` from `dist/index.cjs`) -/

/-- Embedding of `calcProgress(p, start, end, duration)` (controller.js:61-72): the
`duration ? ... : 1` test treats a zero duration as falsy. -/
def calcProgress (p start end_ duration : ℚ) : ℚ :=
  if start ≤ p ∧ p ≤ end_ then
    if duration = 0 then 1 else (p - start) / duration
  else if end_ < p then 1
  else 0

/-- The per-scene fields the tick loop reads and writes. -/
structure TickScene where
  start : ℚ
  end_ : ℚ
  duration : ℚ
  disabled : Bool
  isFixed : Bool
deriving Repr, DecidableEq

/-- Embedding of `p.toFixed(1)` coerced back to a number.  (`toFixed` rounds ties
away from zero while `round` rounds them up; no claim below depends on
tie behaviour.) -/
def jsToFixed1 (q : ℚ) : ℚ := round (10 * q) / 10

/-- Embedding of `vp.toFixed(4)` coerced back to a number. -/
def jsToFixed4 (q : ℚ) : ℚ := round (10000 * q) / 10000

/-- The controller state the tick loop touches: the scene list and the
cached last position. -/
structure TickState where
  scenes : List TickScene
  lastP : Option ℚ

/-- One scene's slice of the tick loop body (dist/index.cjs:1467-1482):
a disabled scene is skipped; otherwise its progress is computed, its
effect invoked (recorded as `some (progress, velocity)`), and an
`isFixed` scene is disabled immediately after the invocation. -/
def sceneTick (p velocity : ℚ) (scene : TickScene) :
    TickScene × Option (ℚ × ℚ) :=
  if scene.disabled then (scene, none)
  else
    let progress := calcProgress p scene.start scene.end_ scene.duration
    ((if scene.isFixed then { scene with disabled := true } else scene),
      some (progress, velocity))

/-- Embedding of `tick({p, vp})` (dist/index.cjs:1456-1486), returning the new state
and, per scene, the effect invocation it performed (if any).  When `p`
equals the cached `lastP` the tick bails out without touching any
scene. -/
def tick (st : TickState) (p vp : ℚ) : TickState × List (Option (ℚ × ℚ)) :=
  let p := jsToFixed1 p
  let velocity := jsToFixed4 vp
  if st.lastP = some p then (st, st.scenes.map fun _ => none)
  else
    let results := st.scenes.map (sceneTick p velocity)
    ({ scenes := results.map Prod.fst, lastP := some p },
      results.map Prod.snd)

/-- A sequence of ticks, collecting each tick's invocation record. -/
def runTicks (st : TickState) :
    List (ℚ × ℚ) → TickState × List (List (Option (ℚ × ℚ)))
  | [] => (st, [])
  | (p, vp) :: rest =>
    let r1 := tick st p vp
    let r2 := runTicks r1.1 rest
    (r2.1, r1.2 :: r2.2)

/-- How many times scene `i`'s effect was invoked across a run. -/
def countInvocations (i : ℕ) (invs : List (List (Option (ℚ × ℚ)))) : ℕ :=
  (invs.map fun l =>
    match l[i]? with
    | some (some _) => 1
    | _ => 0).sum

/-! ## Specification-side definitions

These follow the WORDS of the specification (for refinement
comparisons), not the source. -/

/-- The per-name `(startPosition, duration)` table exactly as the
specification states it (spec §4.1). -/
def claimRangeTable (name : String) (viewportSize : ℚ) (rect : Rect) :
    Option (ℚ × ℚ) :=
  let height := rect.end_ - rect.start
  if name = "entry" then
    some (rect.start - viewportSize, min viewportSize height)
  else if name = "entry-crossing" then
    some (rect.start - viewportSize, height)
  else if name = "contain" then
    some (min (rect.end_ - viewportSize) rect.start, |viewportSize - height|)
  else if name = "exit" then
    some (max rect.start (rect.end_ - viewportSize), min viewportSize height)
  else if name = "exit-crossing" then
    some (rect.start, height)
  else if name = "cover" then
    some (rect.start - viewportSize, height + viewportSize)
  else
    none

/-- The specification's `clamp01` (spec §2: progress is
`clamp01((scrollPos - start) / (end - start))`). -/
def specClamp01 (q : ℚ) : ℚ := max 0 (min 1 q)

/-! ## Slack predicates for the sticky adjustment -/

/-- The slack quantities a node feeds into the sticky adjustment are
non-negative: for a sticky-start node `parentSize - (offset + size)`,
for a sticky-end node its own `offset`.  Holds vacuously for non-sticky
nodes and for nodes without a preceding tree node. -/
def nodeSlackOk (isH : Bool) (parent : Option Element) (node : OffsetNode) :
    Prop :=
  ∀ st p, node.sticky = some st → parent = some p →
    (st.start ≠ none →
      0 ≤ elemSize isH p - (node.offset + elemSize isH node.element)) ∧
    (st.end_ ≠ none → 0 ≤ node.offset)

/-- Lifts `nodeSlackOk` for every node of a tree, threading the preceding
element the way the `forEach` loop does. -/
def treeSlackOk (isH : Bool) : Option Element → List OffsetNode → Prop
  | _, [] => True
  | prev, n :: rest => nodeSlackOk isH prev n ∧ treeSlackOk isH (some n.element) rest

/-- The element of the last node of a list, or the given default — the
`prev` value with which `stickyGo` continues after consuming the
list. -/
def lastElem (prev : Option Element) : List OffsetNode → Option Element
  | [] => prev
  | n :: rest => lastElem (some n.element) rest

/-! ## Concrete demonstration data -/

/-- A plain static computed style. -/
def demoStyle : Style := ⟨"static", "auto", "auto", "auto", "auto", ""⟩

/-- A demonstration absolute-offset context (viewport 800 × 600). -/
def demoCtx : AbsoluteOffsetContext := ⟨800, 600⟩

/-- A demonstration container element of height `200` (for the `cqh`
resolution). -/
def demoContainer : Element := .mk demoStyle 0 0 100 200 none

/-- A root-placeholder element of height `500`. -/
def demoE0 : Element := .mk demoStyle 0 0 0 500 none

/-- A sticky child element (`top: 0`), height `50`, layout offset
`150`. -/
def demoE1 : Element := .mk demoStyle 0 150 0 50 none

/-- An offset tree whose second node is sticky with `start = 0`:
stuck-start `150`, slack `500 - (150 + 50) = 300`. -/
def demoTree : List OffsetNode :=
  [⟨demoE0, 0, none⟩, ⟨demoE1, 150, some ⟨some 0, none⟩⟩]

/-- A scene whose `duration` is the range name `entry`. -/
def demoSceneEntry : Scene Unit :=
  ⟨(), .undef, .undef, .str "entry", none, none, none, none, false, 0, false⟩

/-- A scene whose `duration` is an unrecognized range name. -/
def demoSceneBogus : Scene Unit :=
  ⟨(), .undef, .undef, .str "bogus", none, none, none, none, false, 0, false⟩

/-- A scene with range offsets for both `start` and `end`. -/
def demoSceneRanges : Scene Unit :=
  ⟨(), .range ⟨"entry", some 40, none⟩, .range ⟨"contain", some 60, none⟩,
    .undef, none, none, none, none, false, 0, false⟩

/-- A scene with numeric bounds and a `viewSource` element. -/
def demoSceneView : Scene Unit :=
  ⟨(), .num 1, .num 2, .num 5, none, none, some demoContainer, some "g",
    false, 3, false⟩

/-- The result of `getTransformedScene` on `demoSceneView` with root
`demoE0`: only `end` changes (to `start + duration = 6`). -/
def demoTransformedView : Scene Unit :=
  ⟨(), .num 1, .num 6, .num 5, none, none, some demoContainer, some "g",
    false, 3, false⟩

/-! # Supporting lemmas -/

/-- Wrapping: `n | 0` leaves any integer inside the signed 32-bit range unchanged. -/
theorem jsToInt32_eq_self {n : ℤ} (h₁ : -(2 ^ 31) ≤ n) (h₂ : n < 2 ^ 31) :
    jsToInt32 n = n := by
  unfold jsToInt32
  rw [Int.emod_eq_of_lt (by omega) (by omega)]
  omega

/-- The source's range table agrees with the specification's table. -/
theorem rangeStartDuration_eq_claim (name : String) (viewportSize : ℚ)
    (rect : Rect) :
    rangeStartDuration name viewportSize rect
      = claimRangeTable name viewportSize rect := rfl

/-- A loop iteration over a node with no preceding tree node only
advances the accumulated offset; the working range is untouched. -/
theorem stickyStep_no_parent (V : ℚ) (isH : Bool) (E : ℚ) (node : OffsetNode)
    (a : ℚ) (r : AbsRange) :
    stickyStep V isH E none node (a, r) = (a + node.offset, r) := by
  unfold stickyStep stickyStepStart stickyStepEnd
  rcases node.sticky with _ | st
  · rfl
  · rcases st with ⟨s, e⟩
    rcases s with _ | s <;> rcases e with _ | e <;> rfl

/-- A tree with no sticky nodes leaves the working range unchanged. -/
theorem stickyGo_no_sticky {V E : ℚ} {isH : Bool} :
    ∀ (l : List OffsetNode) (prev : Option Element) (a : ℚ) (r : AbsRange),
      (∀ n ∈ l, n.sticky = none) →
      (stickyGo V isH E prev l (a, r)).2 = r := by
  intro l
  induction l with
  | nil => intro prev a r _; rfl
  | cons n rest ih =>
    intro prev a r hall
    have hn : n.sticky = none := hall n (by simp)
    have hrest : ∀ m ∈ rest, m.sticky = none := fun m hm => hall m (by simp [hm])
    show (stickyGo V isH E (some n.element) rest
      (stickyStep V isH E prev n (a, r))).2 = r
    have hstep : stickyStep V isH E prev n (a, r) = (a + n.offset, r) := by
      unfold stickyStep
      rw [hn]
    rw [hstep]
    exact ih (some n.element) (a + n.offset) r hrest

/-- Identity: `computeStickinessIntoFullRange` is the identity on the range when
no node of the tree is sticky. -/
theorem computeStickiness_no_sticky {aS aE V : ℚ} {isH : Bool}
    {tree : List OffsetNode} (h : ∀ n ∈ tree, n.sticky = none) :
    computeStickinessIntoFullRange tree aS aE V isH = ⟨aS, aE⟩ :=
  stickyGo_no_sticky tree none 0 ⟨aS, aE⟩ h

/-- A string can match at most one `^-?\d+<unit>$` pattern: the residue
after the digit run determines the unit. -/
theorem matchesIntUnit_unique {u1 u2 : List Char} {s : String}
    (h1 : matchesIntUnit u1 s = true) (h2 : matchesIntUnit u2 s = true) :
    u1 = u2 := by
  unfold matchesIntUnit at h1 h2
  simp only [Bool.and_eq_true, decide_eq_true_eq] at h1 h2
  exact h1.2.symm.trans h2.2

/-- Exclusivity: `matchesIntUnit u2 s` rules out `matchesIntUnit u1 s` for a
different unit. -/
theorem matchesIntUnit_false_of_ne (u1 : List Char) {u2 : List Char}
    {s : String} (h : matchesIntUnit u2 s = true) (hne : u1 ≠ u2) :
    matchesIntUnit u1 s = false :=
  Bool.eq_false_iff.2 fun hc => absurd (matchesIntUnit_unique hc h) hne

/-- A unit-pattern match requires at least one digit, so the matched
string is non-empty. -/
theorem matchesIntUnit_ne_empty {u : List Char} {s : String}
    (h : matchesIntUnit u s = true) : s ≠ "" := by
  intro hs
  subst hs
  simp [matchesIntUnit, takeDigits] at h

/-- A string matching the `calc(<len> + <len>)` pattern starts with
`calc`, hence is non-empty and matches none of the single-unit
patterns. -/
theorem calcMatch_not_unit {s : String} {p : List Char × List Char}
    (h : parseOffsetCalcChars s.toList = some p) :
    s ≠ "" ∧ ∀ u, matchesIntUnit u s = false := by
  unfold parseOffsetCalcChars at h
  split at h
  case h_2 => simp at h
  case h_1 r heq =>
    constructor
    · intro hs
      subst hs
      simp at heq
    · intro u
      unfold matchesIntUnit
      rw [heq]
      simp [takeDigits]

/-- The sticky-end branch never moves the range start left and never
shrinks the span, provided the node's own offset (the extra it adds) is
non-negative. -/
theorem stickyStepEnd_mono (V E : ℚ) (isH : Bool) (parent : Option Element)
    (node : OffsetNode) (se a : ℚ) (r : AbsRange) (hoff : 0 ≤ node.offset) :
    r.start ≤ (stickyStepEnd V isH E parent node se a r).start ∧
    r.end_ - r.start ≤ (stickyStepEnd V isH E parent node se a r).end_
      - (stickyStepEnd V isH E parent node se a r).start := by
  unfold stickyStepEnd
  rcases parent with _ | p
  · exact ⟨le_refl _, le_refl _⟩
  · dsimp only
    split_ifs <;> constructor <;> dsimp <;> linarith

/-- The sticky-start branch never moves the range start left and never
shrinks the span, provided its slack is non-negative. -/
theorem stickyStepStart_mono (isH : Bool) (parent : Option Element)
    (node : OffsetNode) (ss a : ℚ) (r : AbsRange)
    (hslack : ∀ p, parent = some p →
      0 ≤ elemSize isH p - (node.offset + elemSize isH node.element)) :
    r.start ≤ (stickyStepStart isH parent node ss a r).2.start ∧
    r.end_ - r.start ≤ (stickyStepStart isH parent node ss a r).2.end_
      - (stickyStepStart isH parent node ss a r).2.start := by
  unfold stickyStepStart
  rcases parent with _ | p
  · exact ⟨le_refl _, le_refl _⟩
  · have h := hslack p rfl
    dsimp only
    split_ifs <;> constructor <;> dsimp <;> linarith

/-- A full loop iteration never moves the range start left and never
shrinks the span when the node's slack quantities are non-negative. -/
theorem stickyStep_mono (V E : ℚ) (isH : Bool) (prev : Option Element)
    (node : OffsetNode) (hok : nodeSlackOk isH prev node) (a : ℚ) (r : AbsRange) :
    r.start ≤ (stickyStep V isH E prev node (a, r)).2.start ∧
    r.end_ - r.start ≤ (stickyStep V isH E prev node (a, r)).2.end_
      - (stickyStep V isH E prev node (a, r)).2.start := by
  rcases prev with _ | p
  · rw [stickyStep_no_parent]
    exact ⟨le_refl _, le_refl _⟩
  · unfold stickyStep
    rcases hs : node.sticky with _ | ⟨sstart, send⟩
    · exact ⟨le_refl _, le_refl _⟩
    · have hok' := hok ⟨sstart, send⟩ p hs rfl
      rcases send with _ | se <;> rcases sstart with _ | ss <;> dsimp
      · exact ⟨le_refl _, le_refl _⟩
      · exact stickyStepStart_mono isH (some p) node ss (a + node.offset) r
          (fun q hq => by cases hq; exact hok'.1 (by simp))
      · exact stickyStepEnd_mono V E isH (some p) node se (a + node.offset) r
          (hok'.2 (by simp))
      · have h1 := stickyStepEnd_mono V E isH (some p) node se
          (a + node.offset) r (hok'.2 (by simp))
        have h2 := stickyStepStart_mono isH (some p) node ss (a + node.offset)
          (stickyStepEnd V isH E (some p) node se (a + node.offset) r)
          (fun q hq => by cases hq; exact hok'.1 (by simp))
        exact ⟨le_trans h1.1 h2.1, le_trans h1.2 h2.2⟩

/-- Monotonicity of the whole fold: under non-negative slack the range
start never decreases and the span never shrinks. -/
theorem stickyGo_mono (V E : ℚ) (isH : Bool) :
    ∀ (l : List OffsetNode) (prev : Option Element) (a : ℚ) (r : AbsRange),
      treeSlackOk isH prev l →
      r.start ≤ (stickyGo V isH E prev l (a, r)).2.start ∧
      r.end_ - r.start ≤ (stickyGo V isH E prev l (a, r)).2.end_
        - (stickyGo V isH E prev l (a, r)).2.start := by
  intro l
  induction l with
  | nil =>
    intro prev a r _
    exact ⟨le_refl _, le_refl _⟩
  | cons n rest ih =>
    intro prev a r hok
    obtain ⟨hn, hrest⟩ := hok
    have hs := stickyStep_mono V E isH prev n hn a r
    rcases hstep : stickyStep V isH E prev n (a, r) with ⟨a1, r1⟩
    rw [hstep] at hs
    have hg := ih (some n.element) a1 r1 hrest
    have hgoal : stickyGo V isH E prev (n :: rest) (a, r)
        = stickyGo V isH E (some n.element) rest (a1, r1) := by
      show stickyGo V isH E (some n.element) rest
        (stickyStep V isH E prev n (a, r)) = _
      rw [hstep]
    rw [hgoal]
    exact ⟨le_trans hs.1 hg.1, le_trans hs.2 hg.2⟩

/-- Splitting the fold over an append, with the `prev` threading made
explicit through `lastElem`. -/
theorem stickyGo_append {V E : ℚ} {isH : Bool} :
    ∀ (l1 l2 : List OffsetNode) (prev : Option Element) (st : ℚ × AbsRange),
      stickyGo V isH E prev (l1 ++ l2) st
        = stickyGo V isH E (lastElem prev l1) l2 (stickyGo V isH E prev l1 st) := by
  intro l1
  induction l1 with
  | nil => intro l2 prev st; rfl
  | cons n rest ih =>
    intro l2 prev st
    show stickyGo V isH E (some n.element) (rest ++ l2)
      (stickyStep V isH E prev n st) = _
    rw [ih]
    rfl

/-- Splitting: `treeSlackOk` splits over an append the same way. -/
theorem treeSlackOk_append {isH : Bool} :
    ∀ (l1 l2 : List OffsetNode) (prev : Option Element),
      treeSlackOk isH prev (l1 ++ l2) →
      treeSlackOk isH prev l1 ∧ treeSlackOk isH (lastElem prev l1) l2 := by
  intro l1
  induction l1 with
  | nil => intro l2 prev h; exact ⟨trivial, h⟩
  | cons n rest ih =>
    intro l2 prev h
    obtain ⟨hn, hrest⟩ := h
    obtain ⟨h1, h2⟩ := ih l2 (some n.element) hrest
    exact ⟨⟨hn, h1⟩, h2⟩

/-- When a sticky-start node's stuck start falls inside the current
working range, the step grows the span by exactly the node's slack. -/
theorem stickyStep_inside_span (V E : ℚ) (isH : Bool) (p : Element)
    (node : OffsetNode) (s a : ℚ) (r : AbsRange)
    (hs : node.sticky = some ⟨some s, none⟩)
    (h1 : r.start ≤ a + node.offset - s) (h2 : a + node.offset - s ≤ r.end_) :
    (stickyStep V isH E (some p) node (a, r)).2.end_
        - (stickyStep V isH E (some p) node (a, r)).2.start
      = (r.end_ - r.start)
        + (elemSize isH p - (node.offset + elemSize isH node.element)) := by
  unfold stickyStep stickyStepStart
  rw [hs]
  dsimp
  rw [if_neg (not_lt.2 h1), if_pos h2]
  dsimp
  ring

/-- What one tick does at scene index `i`: on a bailed tick everything
is unchanged and nothing is invoked; otherwise each scene goes through
`sceneTick`. -/
theorem tick_scenes_get (st : TickState) (p vp : ℚ) (i : ℕ) :
    (tick st p vp).1.scenes[i]?
      = st.scenes[i]?.map (fun sc =>
          if st.lastP = some (jsToFixed1 p) then sc
          else (sceneTick (jsToFixed1 p) (jsToFixed4 vp) sc).1) ∧
    (tick st p vp).2[i]?
      = st.scenes[i]?.map (fun sc =>
          if st.lastP = some (jsToFixed1 p) then none
          else (sceneTick (jsToFixed1 p) (jsToFixed4 vp) sc).2) := by
  unfold tick
  dsimp only
  split_ifs with h <;> constructor <;>
    cases hsc : st.scenes[i]? <;>
      simp [h, hsc, Function.comp, List.getElem?_map, List.map_map,
        -List.map_const, -List.map_const']

/-- One tick step of the invocation count. -/
theorem countInvocations_cons (i : ℕ) (x : List (Option (ℚ × ℚ)))
    (xs : List (List (Option (ℚ × ℚ)))) :
    countInvocations i (x :: xs)
      = (match x[i]? with
         | some (some _) => 1
         | _ => 0) + countInvocations i xs := by
  unfold countInvocations
  rw [List.map_cons, List.sum_cons]

/-- A disabled scene is left untouched and never invoked by a tick. -/
theorem tick_disabled (st : TickState) (p vp : ℚ) {i : ℕ} {sc : TickScene}
    (h : st.scenes[i]? = some sc) (hd : sc.disabled = true) :
    (tick st p vp).1.scenes[i]? = some sc ∧ (tick st p vp).2[i]? = some none := by
  obtain ⟨h1, h2⟩ := tick_scenes_get st p vp i
  rw [h1, h2, h]
  constructor <;> simp only [Option.map_some'] <;> split_ifs <;>
    simp [sceneTick, hd]

/-- A run started with scene `i` disabled never invokes scene `i`. -/
theorem runTicks_disabled :
    ∀ (inputs : List (ℚ × ℚ)) (st : TickState) (i : ℕ) (sc : TickScene),
      st.scenes[i]? = some sc → sc.disabled = true →
      countInvocations i (runTicks st inputs).2 = 0 := by
  intro inputs
  induction inputs with
  | nil =>
    intro st i sc h hd
    rfl
  | cons x rest ih =>
    intro st i sc h hd
    obtain ⟨p, vp⟩ := x
    obtain ⟨h1, h2⟩ := tick_disabled st p vp h hd
    show countInvocations i
      ((tick st p vp).2 :: (runTicks (tick st p vp).1 rest).2) = 0
    rw [countInvocations_cons, h2]
    dsimp only
    rw [Nat.zero_add]
    exact ih (tick st p vp).1 i sc h1 hd

/-! # The claims -/

/-- Claim C1, counterexample.  The claim says `transformRangeToPosition`
returns `floor(startPosition + (offset/100) * duration)`; the source's
`| 0` truncates toward zero instead.  For the `entry` range with
`offset = 50`, `viewportSize = 101` and `rect = {start: 0, end: 1}` the
exact value is `-100.5`: the code returns `-100` while the floor is
`-101`. -/
theorem C1_floor_counterexample :
    transformRangeToPosition ⟨"entry", some 50, none⟩ 101 ⟨0, 1⟩ = -100 ∧
    ⌊((0 : ℚ) - 101) + 50 / 100 * min 101 ((1 : ℚ) - 0)⌋ = -101 := by
  constructor
  · norm_num [transformRangeToPosition, rangeStartDuration, jsTrunc, jsToInt32]
  · norm_num

/-- Claim C1, amended.  For every recognized range name,
`transformRangeToPosition` returns the TRUNCATION TOWARD ZERO (not the
floor) of `startPosition + (offset/100) * duration`, with
`(startPosition, duration)` exactly as the claim's table states,
whenever that truncation lies in the signed 32-bit range (the `| 0`
coercion wraps outside it); truncation and floor agree on non-negative
values, so the claim's example spans for `rect = {start: 300, end: 400}`
and `viewportSize = 200` hold as stated: entry `[100, 200)`, contain
`[200, 300)`, exit `[300, 400)`, cover `[100, 400)`. -/
theorem C1_range_to_position :
    (∀ (name : String) (o viewportSize : ℚ) (rect : Rect) (add : Option String)
      (sp d : ℚ),
      claimRangeTable name viewportSize rect = some (sp, d) →
      0 ≤ o → o ≤ 100 →
      -(2 ^ 31) ≤ jsTrunc (sp + o / 100 * d) →
      jsTrunc (sp + o / 100 * d) < 2 ^ 31 →
      transformRangeToPosition ⟨name, some o, add⟩ viewportSize rect
        = jsTrunc (sp + o / 100 * d)) ∧
    (transformRangeToPosition ⟨"entry", some 0, none⟩ 200 ⟨300, 400⟩ = 100 ∧
     transformRangeToPosition ⟨"entry", some 100, none⟩ 200 ⟨300, 400⟩ = 200 ∧
     transformRangeToPosition ⟨"contain", some 0, none⟩ 200 ⟨300, 400⟩ = 200 ∧
     transformRangeToPosition ⟨"contain", some 100, none⟩ 200 ⟨300, 400⟩ = 300 ∧
     transformRangeToPosition ⟨"exit", some 0, none⟩ 200 ⟨300, 400⟩ = 300 ∧
     transformRangeToPosition ⟨"exit", some 100, none⟩ 200 ⟨300, 400⟩ = 400 ∧
     transformRangeToPosition ⟨"cover", some 0, none⟩ 200 ⟨300, 400⟩ = 100 ∧
     transformRangeToPosition ⟨"cover", some 100, none⟩ 200 ⟨300, 400⟩ = 400) := by
  constructor
  · intro name o viewportSize rect add sp d hname h0 h100 hlo hhi
    unfold transformRangeToPosition
    rw [rangeStartDuration_eq_claim, hname]
    simp only [Option.getD_some]
    exact jsToInt32_eq_self hlo hhi
  · refine ⟨?_, ?_, ?_, ?_, ?_, ?_, ?_, ?_⟩ <;>
      norm_num [transformRangeToPosition, rangeStartDuration, jsTrunc, jsToInt32,
        show ¬("contain" = "entry") from by decide,
        show ¬("contain" = "entry-crossing") from by decide,
        show ¬("exit" = "entry") from by decide,
        show ¬("exit" = "entry-crossing") from by decide,
        show ¬("exit" = "contain") from by decide,
        show ¬("cover" = "entry") from by decide,
        show ¬("cover" = "entry-crossing") from by decide,
        show ¬("cover" = "contain") from by decide,
        show ¬("cover" = "exit") from by decide,
        show ¬("cover" = "exit-crossing") from by decide]

/-- Claim C1, witness: the amended theorem applied at the `exit` range,
`offset = 50`, `viewportSize = 200`, `rect = {start: 300, end: 400}`. -/
theorem C1_range_to_position_witness :
    Fizban.transformRangeToPosition ⟨"exit", some 50, none⟩ 200 ⟨300, 400⟩
      = Fizban.jsTrunc (300 + 50 / 100 * 100) :=
  C1_range_to_position.1 "exit" 50 200 ⟨300, 400⟩ none 300 100
    (by norm_num [claimRangeTable,
      show ¬("exit" = "entry") from by decide,
      show ¬("exit" = "entry-crossing") from by decide,
      show ¬("exit" = "contain") from by decide])
    (by norm_num) (by norm_num)
    (by norm_num [jsTrunc]) (by norm_num [jsTrunc])

/-- Claim C3, counterexample.  For the unrecognized range name `bogus`,
the resolver's internal `(startPosition, duration)` pair is indeed
`undefined` — but the claim's final assertion fails: `NaN | 0` is `0`
in JavaScript, so `transformRangeToPosition` returns the definite
number `0`, and the scene offsets resolved from such a range are the
definite numbers `0`, not `NaN`. -/
theorem C3_nan_counterexample :
    rangeStartDuration "bogus" 200 ⟨300, 400⟩ = none ∧
    transformRangeToPosition ⟨"bogus", some 50, none⟩ 200 ⟨300, 400⟩ = 0 ∧
    (transformSceneRangesToOffsets demoSceneBogus ⟨300, 400⟩ 200 false demoCtx
      demoContainer []).start = SceneBound.num 0 ∧
    (transformSceneRangesToOffsets demoSceneBogus ⟨300, 400⟩ 200 false demoCtx
      demoContainer []).end_ = SceneBound.num 0 := by
  have hb : rangeStartDuration "bogus" 200 ⟨300, 400⟩ = none := by
    norm_num [rangeStartDuration,
      show ¬("bogus" = "entry") from by decide,
      show ¬("bogus" = "entry-crossing") from by decide,
      show ¬("bogus" = "contain") from by decide,
      show ¬("bogus" = "exit") from by decide,
      show ¬("bogus" = "exit-crossing") from by decide,
      show ¬("bogus" = "cover") from by decide]
  have hpos : ∀ (o : Option ℚ) (add : Option String),
      transformRangeToPosition ⟨"bogus", o, add⟩ 200 ⟨300, 400⟩ = 0 := by
    intro o add
    unfold transformRangeToPosition
    rw [hb]
  refine ⟨hb, hpos (some 50) none, ?_, ?_⟩ <;>
    norm_num [transformSceneRangesToOffsets, transformSceneRangesToOffsetsCore,
      demoSceneBogus, hpos, computeStickinessIntoFullRange, stickyGo]

/-- Claim C3, amended.  For every range whose name is unrecognized,
`transformRangeToPosition` leaves the internal `startPosition` and
`duration` undefined, but the final `| 0` coercion maps the resulting
`NaN` to `0`: the function returns the definite number `0`, and a scene
whose `duration` is such a name gets the definite (sticky-adjusted)
offsets obtained from the pair `(0, 0)` rather than `NaN`. -/
theorem C3_unrecognized_name :
    ∀ (name : String) (o : Option ℚ) (add : Option String) (V : ℚ) (rect : Rect),
      rangeStartDuration name V rect = none →
      transformRangeToPosition ⟨name, o, add⟩ V rect = 0 ∧
      (∀ (α : Type) (scene : Scene α) (isH : Bool) (ctx : AbsoluteOffsetContext)
        (container : Element) (tree : List OffsetNode),
        scene.duration = SceneDuration.str name →
        (transformSceneRangesToOffsets scene rect V isH ctx container tree).start
          = SceneBound.num (computeStickinessIntoFullRange tree 0 0 V isH).start ∧
        (transformSceneRangesToOffsets scene rect V isH ctx container tree).end_
          = SceneBound.num (computeStickinessIntoFullRange tree 0 0 V isH).end_) := by
  intro name o add V rect h
  have hpos : ∀ (o' : Option ℚ) (add' : Option String),
      transformRangeToPosition ⟨name, o', add'⟩ V rect = 0 := by
    intro o' add'
    unfold transformRangeToPosition
    rw [h]
  refine ⟨hpos o add, ?_⟩
  intro α scene isH ctx container tree hd
  unfold transformSceneRangesToOffsets transformSceneRangesToOffsetsCore
  rw [hd]
  simp only [hpos, Int.cast_zero]
  exact ⟨trivial, trivial⟩

/-- Claim C3, witness: the amended theorem applied to the name `bogus`
at `viewportSize = 200`, `rect = {start: 300, end: 400}`. -/
theorem C3_unrecognized_name_witness :
    Fizban.transformRangeToPosition ⟨"bogus", some 50, none⟩ 200 ⟨300, 400⟩ = 0 :=
  (C3_unrecognized_name "bogus" (some 50) none 200 ⟨300, 400⟩
    (by norm_num [rangeStartDuration,
      show ¬("bogus" = "entry") from by decide,
      show ¬("bogus" = "entry-crossing") from by decide,
      show ¬("bogus" = "contain") from by decide,
      show ¬("bogus" = "exit") from by decide,
      show ¬("bogus" = "exit-crossing") from by decide,
      show ¬("bogus" = "cover") from by decide])).1

/-- Claim C7.  `calcProgress(p, start, end, duration)` returns
`(p - start) / duration` when `start ≤ p ≤ end` and `duration ≠ 0`;
`1` when `start ≤ p ≤ end` and `duration = 0`, or when `p > end`; and
`0` otherwise.  When `duration = end - start > 0` this is exactly
`clamp01((p - start) / (end - start))`; when `end < start` the result is
always `0` (for `p ≤ end`) or `1` (for `p > end`), never strictly
between. -/
theorem C7_calc_progress :
    (∀ p s e d : ℚ, s ≤ p → p ≤ e → d ≠ 0 →
      calcProgress p s e d = (p - s) / d) ∧
    (∀ p s e : ℚ, s ≤ p → p ≤ e → calcProgress p s e 0 = 1) ∧
    (∀ p s e d : ℚ, e < p → calcProgress p s e d = 1) ∧
    (∀ p s e d : ℚ, ¬(s ≤ p ∧ p ≤ e) → ¬(e < p) → calcProgress p s e d = 0) ∧
    (∀ p s e : ℚ, 0 < e - s →
      calcProgress p s e (e - s) = specClamp01 ((p - s) / (e - s))) ∧
    (∀ p s e : ℚ, e < s →
      (p ≤ e → calcProgress p s e (e - s) = 0) ∧
      (e < p → calcProgress p s e (e - s) = 1)) := by
  refine ⟨?_, ?_, ?_, ?_, ?_, ?_⟩
  · intro p s e d h1 h2 hd
    unfold calcProgress
    rw [if_pos ⟨h1, h2⟩, if_neg hd]
  · intro p s e h1 h2
    unfold calcProgress
    rw [if_pos ⟨h1, h2⟩, if_pos rfl]
  · intro p s e d h
    unfold calcProgress
    rw [if_neg (fun hc => absurd h (not_lt.2 hc.2)), if_pos h]
  · intro p s e d h1 h2
    unfold calcProgress
    rw [if_neg h1, if_neg h2]
  · intro p s e hpos
    have hd : e - s ≠ 0 := ne_of_gt hpos
    unfold calcProgress specClamp01
    rcases le_or_lt s p with hsp | hps
    · rcases le_or_lt p e with hpe | hep
      · rw [if_pos ⟨hsp, hpe⟩, if_neg hd]
        have h01 : 0 ≤ (p - s) / (e - s) :=
          div_nonneg (by linarith) (by linarith)
        have hle1 : (p - s) / (e - s) ≤ 1 := by
          rw [div_le_one hpos]
          linarith
        rw [min_eq_right hle1, max_eq_right h01]
      · rw [if_neg (fun hc => absurd hep (not_lt.2 hc.2)), if_pos hep]
        have hgt : 1 < (p - s) / (e - s) := (one_lt_div hpos).2 (by linarith)
        rw [min_eq_left hgt.le, max_eq_right zero_le_one]
    · have hne : ¬(s ≤ p ∧ p ≤ e) := fun hc => absurd hc.1 (not_le.2 hps)
      have hnp : ¬(e < p) := by
        intro hc
        linarith
      rw [if_neg hne, if_neg hnp]
      have hv : (p - s) / (e - s) ≤ 0 := by
        apply div_nonpos_of_nonpos_of_nonneg <;> linarith
      rw [min_eq_right (le_trans hv zero_le_one), max_eq_left hv]
  · intro p s e hes
    constructor
    · intro hpe
      unfold calcProgress
      rw [if_neg (fun hc => absurd (le_trans hc.1 hc.2) (not_le.2 hes)),
        if_neg (not_lt.2 hpe)]
    · intro hep
      unfold calcProgress
      rw [if_neg (fun hc => absurd hep (not_lt.2 hc.2)), if_pos hep]

/-- Claim C7, witness: with `start = 100`, `end = 200` (`duration = 100`)
the progress at `p = 150` is `1/2`, and this is the clamped linear
value. -/
theorem C7_calc_progress_witness :
    Fizban.calcProgress 150 100 200 100 = (150 - 100) / 100 ∧
    Fizban.calcProgress 150 100 200 (200 - 100)
      = Fizban.specClamp01 ((150 - 100) / (200 - 100)) :=
  ⟨C7_calc_progress.1 150 100 200 100 (by norm_num) (by norm_num) (by norm_num),
   C7_calc_progress.2.2.2.2.1 150 100 200 (by norm_num)⟩

/-- Claim C8, counterexample.  The claim's enumeration omits the
container-query branches: `'50cqh'` is not resolved as
`parseInt('50cqh') || 0 = 50` but as
`50 * container.offsetHeight / 100`, which is `100` for a container of
height `200`. -/
theorem C8_cq_counterexample :
    transformAbsoluteOffsetToNumber (some "50cqh") demoCtx demoContainer = 100 ∧
    ((jsParseInt "50cqh").getD 0 : ℚ) = 50 ∧ (100 : ℚ) ≠ 50 := by
  refine ⟨?_, by norm_num [show jsParseInt "50cqh" = some 50 from by decide], by norm_num⟩
  rw [transformAbsoluteOffsetToNumber]
  norm_num [show ¬("50cqh" = "") from by decide,
    show matchesIntUnit ['p', 'x'] "50cqh" = false from by decide,
    show matchesIntUnit ['v', 'h'] "50cqh" = false from by decide,
    show matchesIntUnit ['v', 'w'] "50cqh" = false from by decide,
    show matchesIntUnit ['c', 'q', 'h'] "50cqh" = true from by decide,
    show jsParseInt "50cqh" = some 50 from by decide,
    demoContainer, Element.offsetHeight]

/-- Claim C8, amended.  `transformAbsoluteOffsetToNumber` is total (the
embedding returns a definite rational on every input):
undefined or empty input yields `0`; `<n>px` yields `n`; `<n>vh` yields
`n * viewportHeight / 100`; `<n>vw` yields `n * viewportWidth / 100`;
`<n>cqh` yields `n * container.offsetHeight / 100` and `<n>cqw` yields
`n * container.offsetWidth / 100` (branches the claim omitted); the
two-term `calc(<len> + <len>)` form yields the sum of the two resolved
terms; and any other non-empty string yields `parseInt(s) || 0`. -/
theorem C8_absolute_offset :
    ∀ (ctx : AbsoluteOffsetContext) (container : Element) (s : String),
      transformAbsoluteOffsetToNumber none ctx container = 0 ∧
      transformAbsoluteOffsetToNumber (some "") ctx container = 0 ∧
      (matchesIntUnit ['p', 'x'] s = true →
        transformAbsoluteOffsetToNumber (some s) ctx container
          = ((jsParseInt s).getD 0 : ℚ)) ∧
      (matchesIntUnit ['v', 'h'] s = true →
        transformAbsoluteOffsetToNumber (some s) ctx container
          = ((jsParseInt s).getD 0 : ℚ) * ctx.viewportHeight / 100) ∧
      (matchesIntUnit ['v', 'w'] s = true →
        transformAbsoluteOffsetToNumber (some s) ctx container
          = ((jsParseInt s).getD 0 : ℚ) * ctx.viewportWidth / 100) ∧
      (matchesIntUnit ['c', 'q', 'h'] s = true →
        transformAbsoluteOffsetToNumber (some s) ctx container
          = ((jsParseInt s).getD 0 : ℚ) * container.offsetHeight / 100) ∧
      (matchesIntUnit ['c', 'q', 'w'] s = true →
        transformAbsoluteOffsetToNumber (some s) ctx container
          = ((jsParseInt s).getD 0 : ℚ) * container.offsetWidth / 100) ∧
      (∀ a b, parseOffsetCalcChars s.toList = some (a, b) →
        transformAbsoluteOffsetToNumber (some s) ctx container
          = transformAbsoluteOffsetToNumber (some (String.mk a)) ctx container
            + transformAbsoluteOffsetToNumber (some (String.mk b)) ctx container) ∧
      (s ≠ "" →
        matchesIntUnit ['p', 'x'] s = false →
        matchesIntUnit ['v', 'h'] s = false →
        matchesIntUnit ['v', 'w'] s = false →
        matchesIntUnit ['c', 'q', 'h'] s = false →
        matchesIntUnit ['c', 'q', 'w'] s = false →
        parseOffsetCalcChars s.toList = none →
        transformAbsoluteOffsetToNumber (some s) ctx container
          = ((jsParseInt s).getD 0 : ℚ)) := by
  intro ctx container s
  refine ⟨by rw [transformAbsoluteOffsetToNumber],
    by rw [transformAbsoluteOffsetToNumber]; simp, ?_, ?_, ?_, ?_, ?_, ?_, ?_⟩
  · intro h
    rw [transformAbsoluteOffsetToNumber]
    simp [matchesIntUnit_ne_empty h, h]
  · intro h
    rw [transformAbsoluteOffsetToNumber]
    simp [matchesIntUnit_ne_empty h, h,
      matchesIntUnit_false_of_ne ['p', 'x'] h (by decide)]
  · intro h
    rw [transformAbsoluteOffsetToNumber]
    simp [matchesIntUnit_ne_empty h, h,
      matchesIntUnit_false_of_ne ['p', 'x'] h (by decide),
      matchesIntUnit_false_of_ne ['v', 'h'] h (by decide)]
  · intro h
    rw [transformAbsoluteOffsetToNumber]
    simp [matchesIntUnit_ne_empty h, h,
      matchesIntUnit_false_of_ne ['p', 'x'] h (by decide),
      matchesIntUnit_false_of_ne ['v', 'h'] h (by decide),
      matchesIntUnit_false_of_ne ['v', 'w'] h (by decide)]
  · intro h
    rw [transformAbsoluteOffsetToNumber]
    simp [matchesIntUnit_ne_empty h, h,
      matchesIntUnit_false_of_ne ['p', 'x'] h (by decide),
      matchesIntUnit_false_of_ne ['v', 'h'] h (by decide),
      matchesIntUnit_false_of_ne ['v', 'w'] h (by decide),
      matchesIntUnit_false_of_ne ['c', 'q', 'h'] h (by decide)]
  · intro a b h
    obtain ⟨hne, hunits⟩ := calcMatch_not_unit h
    rw [transformAbsoluteOffsetToNumber]
    simp only [hne, hunits, if_neg, ite_false, Bool.false_eq_true, if_false]
    split
    · rename_i a' b' heq
      rw [h] at heq
      simp only [Option.some.injEq, Prod.mk.injEq] at heq
      rw [heq.1, heq.2]
    · rename_i heq
      rw [h] at heq
      simp at heq
  · intro hne hpx hvh hvw hcqh hcqw hcalc
    rw [transformAbsoluteOffsetToNumber]
    simp only [hne, hpx, hvh, hvw, hcqh, hcqw, Bool.false_eq_true, if_false,
      ite_false]
    split
    · rename_i a b heq
      rw [hcalc] at heq
      simp at heq
    · rfl

/-- Claim C8, witness: the amended theorem applied to the string
`'42px'` (yielding `parseInt('42px') = 42`). -/
theorem C8_absolute_offset_witness :
    Fizban.transformAbsoluteOffsetToNumber (some "42px") Fizban.demoCtx
      Fizban.demoContainer = ((Fizban.jsParseInt "42px").getD 0 : ℚ) :=
  (C8_absolute_offset demoCtx demoContainer "42px").2.2.1 (by decide)

/-- Claim C4.  For a scene whose `duration` is not a string and whose
`start` (resp. `end`) is a Range Offset `{name, offset, add}` (with no
overriding `startRange`/`endRange` cached), the resolved bound equals
`adjusted.start + (offset/100) * (adjusted.end - adjusted.start) +
resolvedAdd`, where `adjusted` is the sticky adjustment of the named
range's full 0% and 100% positions and `resolvedAdd` the resolved `add`
length: the full span is resolved first, sticky-adjusted, and only then
interpolated and shifted. -/
theorem C4_range_offset_resolution :
    ∀ (α : Type) (scene : Scene α) (rect : Rect) (V : ℚ) (isH : Bool)
      (ctx : AbsoluteOffsetContext) (container : Element)
      (tree : List OffsetNode) (r : RangeOffset) (o : ℚ),
      (∀ n, scene.duration ≠ SceneDuration.str n) →
      (scene.startRange = none → scene.start = SceneBound.range r →
        r.offset = some o → r.name ≠ "" →
        (transformSceneRangesToOffsets scene rect V isH ctx container tree).start
          = SceneBound.num
            (let adj := computeStickinessIntoFullRange tree
              (transformRangeToPosition { r with offset := some 0 } V rect : ℚ)
              (transformRangeToPosition { r with offset := some 100 } V rect : ℚ)
              V isH
             adj.start + o / 100 * (adj.end_ - adj.start)
               + transformAbsoluteOffsetToNumber r.add ctx container)) ∧
      (scene.endRange = none → scene.end_ = SceneBound.range r →
        r.offset = some o → r.name ≠ "" →
        (transformSceneRangesToOffsets scene rect V isH ctx container tree).end_
          = SceneBound.num
            (let adj := computeStickinessIntoFullRange tree
              (transformRangeToPosition { r with offset := some 0 } V rect : ℚ)
              (transformRangeToPosition { r with offset := some 100 } V rect : ℚ)
              V isH
             adj.start + o / 100 * (adj.end_ - adj.start)
               + transformAbsoluteOffsetToNumber r.add ctx container)) := by
  intro α scene rect V isH ctx container tree r o hnstr
  constructor
  · intro hsr hst ho hname
    rcases hd : scene.duration with _ | d | n
    case str => exact absurd hd (hnstr n)
    all_goals
      have heff : effectiveStartRange scene = some r := by
        unfold effectiveStartRange
        rw [hsr, hst]
        simp [hname]
      unfold transformSceneRangesToOffsets transformSceneRangesToOffsetsCore
      rw [hd]
      simp only [heff]
      unfold resolveRangeOffset
      simp [ho]
  · intro her hen ho hname
    rcases hd : scene.duration with _ | d | n
    case str => exact absurd hd (hnstr n)
    all_goals
      have heff : effectiveEndRange scene = some r := by
        unfold effectiveEndRange
        rw [her, hen]
        simp [hname]
      unfold transformSceneRangesToOffsets transformSceneRangesToOffsetsCore
      rw [hd]
      simp only [heff]
      unfold resolveRangeOffset
      simp [ho]

/-- Claim C4, witness: the theorem applied to the scene
`{start: {name: 'entry', offset: 40}, end: {name: 'contain', offset:
60}}` over the empty offset tree. -/
theorem C4_range_offset_resolution_witness :
    (transformSceneRangesToOffsets demoSceneRanges ⟨300, 400⟩ 200 false demoCtx
      demoContainer []).start
      = SceneBound.num
        ((computeStickinessIntoFullRange []
            (transformRangeToPosition ⟨"entry", some 0, none⟩ 200 ⟨300, 400⟩ : ℚ)
            (transformRangeToPosition ⟨"entry", some 100, none⟩ 200 ⟨300, 400⟩ : ℚ)
            200 false).start
          + 40 / 100 *
            ((computeStickinessIntoFullRange []
                (transformRangeToPosition ⟨"entry", some 0, none⟩ 200 ⟨300, 400⟩ : ℚ)
                (transformRangeToPosition ⟨"entry", some 100, none⟩ 200 ⟨300, 400⟩ : ℚ)
                200 false).end_
              - (computeStickinessIntoFullRange []
                  (transformRangeToPosition ⟨"entry", some 0, none⟩ 200 ⟨300, 400⟩ : ℚ)
                  (transformRangeToPosition ⟨"entry", some 100, none⟩ 200 ⟨300, 400⟩ : ℚ)
                  200 false).start)
          + transformAbsoluteOffsetToNumber none demoCtx demoContainer) :=
  (C4_range_offset_resolution Unit demoSceneRanges ⟨300, 400⟩ 200 false demoCtx
    demoContainer [] ⟨"entry", some 40, none⟩ 40
    (fun n h => by simp [demoSceneRanges] at h)).1
    rfl rfl rfl (by decide)

/-- Claim C2, counterexample.  For a scene with `duration: 'entry'`,
`rect = {start: 300, end: 400}`, `viewportSize = 200` and an offset tree
containing a sticky-start ancestor whose stuck start (150) falls inside
the raw range `[100, 200]` with slack `300`, the returned scene has
`start = 100`, `end = 500` but `duration = 100`: `overrideDuration` is
computed BEFORE the sticky adjustment, so `duration ≠ end - start`. -/
theorem C2_duration_counterexample :
    (transformSceneRangesToOffsets demoSceneEntry ⟨300, 400⟩ 200 false demoCtx
      demoContainer demoTree).start = SceneBound.num 100 ∧
    (transformSceneRangesToOffsets demoSceneEntry ⟨300, 400⟩ 200 false demoCtx
      demoContainer demoTree).end_ = SceneBound.num 500 ∧
    (transformSceneRangesToOffsets demoSceneEntry ⟨300, 400⟩ 200 false demoCtx
      demoContainer demoTree).duration = SceneDuration.num 100 ∧
    (100 : ℚ) ≠ 500 - 100 := by
  refine ⟨?_, ?_, ?_, by norm_num⟩ <;>
    norm_num [transformSceneRangesToOffsets, transformSceneRangesToOffsetsCore,
      demoSceneEntry, transformRangeToPosition, rangeStartDuration, jsTrunc,
      jsToInt32, computeStickinessIntoFullRange, stickyGo, stickyStep,
      stickyStepStart, stickyStepEnd, elemSize, Element.offsetHeight,
      Element.offsetWidth, demoTree, demoE0, demoE1]

/-- Claim C2, amended.  For a scene whose `duration` is a Range Name,
`transformSceneRangesToOffsets` computes the 0% and 100% positions of
that named range, feeds that pair through
`computeStickinessIntoFullRange` as one unit and sets the returned
scene's `start`/`end` to the adjusted pair — but it sets `duration` to
the span BEFORE the adjustment (falling back to the original string
when that span is `0`).  `duration = end - start` therefore holds only
when the adjustment preserves the span, in particular when the offset
tree has no sticky nodes. -/
theorem C2_duration_name :
    ∀ (α : Type) (scene : Scene α) (rect : Rect) (V : ℚ) (isH : Bool)
      (ctx : AbsoluteOffsetContext) (container : Element)
      (tree : List OffsetNode) (name : String),
      scene.duration = SceneDuration.str name →
      (let s0 : ℚ := (transformRangeToPosition ⟨name, some 0, none⟩ V rect : ℚ)
       let e0 : ℚ := (transformRangeToPosition ⟨name, some 100, none⟩ V rect : ℚ)
       let adj := computeStickinessIntoFullRange tree s0 e0 V isH
       let res := transformSceneRangesToOffsets scene rect V isH ctx container tree
       res.start = SceneBound.num adj.start ∧
       res.end_ = SceneBound.num adj.end_ ∧
       res.startRange = some ⟨name, some 0, none⟩ ∧
       res.endRange = some ⟨name, some 100, none⟩ ∧
       res.duration
         = (if e0 - s0 = 0 then scene.duration else SceneDuration.num (e0 - s0)) ∧
       ((∀ n ∈ tree, n.sticky = none) → e0 - s0 ≠ 0 →
         res.duration = SceneDuration.num (adj.end_ - adj.start))) := by
  intro α scene rect V isH ctx container tree name hd
  intro s0 e0 adj res
  have hres : res = transformSceneRangesToOffsets scene rect V isH ctx container
      tree := rfl
  unfold transformSceneRangesToOffsets transformSceneRangesToOffsetsCore at hres
  rw [hd] at hres
  refine ⟨by rw [hres], by rw [hres], by rw [hres],
    by rw [hres], by rw [hres, hd], ?_⟩
  · intro hns hne
    have hadj : adj = ⟨s0, e0⟩ := computeStickiness_no_sticky hns
    rw [hres]
    show (if e0 - s0 = 0 then SceneDuration.str name
      else SceneDuration.num (e0 - s0)) = SceneDuration.num (adj.end_ - adj.start)
    rw [if_neg hne, hadj]

/-- Claim C2, witness: the amended theorem applied to a scene with
`duration: 'entry'` over the empty (hence sticky-free) offset tree. -/
theorem C2_duration_name_witness :
    (transformSceneRangesToOffsets demoSceneEntry ⟨300, 400⟩ 200 false demoCtx
      demoContainer []).start
      = SceneBound.num (computeStickinessIntoFullRange []
          (transformRangeToPosition ⟨"entry", some 0, none⟩ 200 ⟨300, 400⟩ : ℚ)
          (transformRangeToPosition ⟨"entry", some 100, none⟩ 200 ⟨300, 400⟩ : ℚ)
          200 false).start :=
  (C2_duration_name Unit demoSceneEntry ⟨300, 400⟩ 200 false demoCtx
    demoContainer [] "entry" rfl).1

/-- Claim C10.  `transformSceneRangesToOffsets` (and hence
`getTransformedScene`) returns a new scene object in which every field
other than `start`, `end`, `duration`, `startRange`, `endRange` and
`isFixed` is carried over unchanged (`effect`, `viewSource`, `groupId`,
`disabled`, `index`).  The embedding is pure, so the input scene itself
is untouched by construction. -/
theorem C10_field_carry_over :
    ∀ (α : Type) (scene : Scene α) (rect : Rect) (V : ℚ) (isH : Bool)
      (ctx : AbsoluteOffsetContext) (container : Element)
      (tree : List OffsetNode) (root : Element),
      ((transformSceneRangesToOffsets scene rect V isH ctx container tree).effect
          = scene.effect ∧
       (transformSceneRangesToOffsets scene rect V isH ctx container tree).viewSource
          = scene.viewSource ∧
       (transformSceneRangesToOffsets scene rect V isH ctx container tree).groupId
          = scene.groupId ∧
       (transformSceneRangesToOffsets scene rect V isH ctx container tree).disabled
          = scene.disabled ∧
       (transformSceneRangesToOffsets scene rect V isH ctx container tree).index
          = scene.index ∧
       (transformSceneRangesToOffsets scene rect V isH ctx container tree).isFixed
          = scene.isFixed) ∧
      (∀ res, getTransformedScene scene root V isH ctx = some res →
        res.effect = scene.effect ∧
        res.viewSource = scene.viewSource ∧
        res.groupId = scene.groupId ∧
        res.disabled = scene.disabled ∧
        res.index = scene.index) := by
  intro α scene rect V isH ctx container tree root
  refine ⟨⟨rfl, rfl, rfl, rfl, rfl, rfl⟩, ?_⟩
  intro res hres
  unfold getTransformedScene at hres
  rcases hv : scene.viewSource with _ | e
  · rw [hv] at hres
    simp at hres
  · rw [hv] at hres
    simp only [Option.some.injEq] at hres
    subst hres
    exact ⟨rfl, hv.symm ▸ rfl, rfl, rfl, rfl⟩

/-- Claim C10, witness: the theorem applied to a concrete scene with a
`viewSource` that has no `offsetParent`. -/
theorem C10_field_carry_over_witness :
    getTransformedScene demoSceneView demoE0 200 false demoCtx
      = some demoTransformedView ∧
    demoTransformedView.index = demoSceneView.index := by
  have h : getTransformedScene demoSceneView demoE0 200 false demoCtx
      = some demoTransformedView := by
    norm_num [getTransformedScene, demoSceneView, demoTransformedView, demoCtx,
      demoContainer, demoStyle, getIsSticky, getIsContainer, getRectStart,
      stickyHasEnd, Element.style, Element.offsetTop, Element.offsetLeft,
      Element.offsetWidth, Element.offsetHeight, Element.offsetParent,
      transformSceneRangesToOffsets, transformSceneRangesToOffsetsCore,
      effectiveStartRange, effectiveEndRange, boundPlus,
      show ¬("static" = "sticky") from by decide,
      show ¬("static" = "fixed") from by decide]
  exact ⟨h, ((C10_field_carry_over Unit demoSceneView ⟨0, 200⟩ 200 false demoCtx
    demoContainer [] demoE0).2 demoTransformedView h).2.2.2.2⟩

/-- Claim C5.  In `computeStickinessIntoFullRange`, a tree node flagged
sticky with a `start` value and a preceding (parent) node contributes as
the claim states: on the working range current after the node's own
sticky-end handling, with `stuckStart = accumulatedOffset -
sticky.start`, if `stuckStart < range.start` or `stuckStart ≤ range.end`
then `extraOffset = parentSize - (node.offset + node.size)` is added to
`range.end` (and to the accumulated offset), and additionally to
`range.start` exactly when `stuckStart < range.start`; a node with no
preceding node — in particular the first node of the tree, the root
placeholder — never adjusts the range. -/
theorem C5_sticky_start_step :
    ∀ (V : ℚ) (isH : Bool) (E : ℚ) (prev : Option Element) (node : OffsetNode)
      (a : ℚ) (r : AbsRange) (s : ℚ) (send : Option ℚ),
      (node.sticky = some ⟨some s, send⟩ →
        ∀ p, prev = some p →
          stickyStep V isH E prev node (a, r)
            = (let r1 := match send with
                 | some se =>
                     stickyStepEnd V isH E (some p) node se (a + node.offset) r
                 | none => r
               let stuckStart := a + node.offset - s
               let extraOffset := elemSize isH p
                 - (node.offset + elemSize isH node.element)
               if stuckStart < r1.start then
                 (a + node.offset + extraOffset,
                   ⟨r1.start + extraOffset, r1.end_ + extraOffset⟩)
               else if stuckStart ≤ r1.end_ then
                 (a + node.offset + extraOffset, ⟨r1.start, r1.end_ + extraOffset⟩)
               else (a + node.offset, r1))) ∧
      (prev = none → stickyStep V isH E prev node (a, r) = (a + node.offset, r)) ∧
      (∀ (first : OffsetNode) (rest : List OffsetNode) (aS aE : ℚ),
        computeStickinessIntoFullRange (first :: rest) aS aE V isH
          = (stickyGo V isH aE (some first.element) rest
              (first.offset, ⟨aS, aE⟩)).2) := by
  intro V isH E prev node a r s send
  refine ⟨?_, ?_, ?_⟩
  · intro hs p hp
    subst hp
    unfold stickyStep stickyStepStart
    rw [hs]
  · intro hp
    subst hp
    exact stickyStep_no_parent V isH E node a r
  · intro first rest aS aE
    unfold computeStickinessIntoFullRange
    show (stickyGo V isH aE (some first.element) rest
      (stickyStep V isH aE none first (0, ⟨aS, aE⟩))).2 = _
    rw [stickyStep_no_parent, zero_add]

/-- Claim C5, witness: the step characterization applied to the sticky
node of `demoTree` (stuck start `150` inside the range `[100, 200]`). -/
theorem C5_sticky_start_step_witness :
    stickyStep 200 false 200 (some demoE0) ⟨demoE1, 150, some ⟨some 0, none⟩⟩
      (0, ⟨100, 200⟩)
      = (if (0 : ℚ) + 150 - 0 < (100 : ℚ) then
           (0 + 150 + (elemSize false demoE0 - (150 + elemSize false demoE1)),
             ⟨100 + (elemSize false demoE0 - (150 + elemSize false demoE1)),
              200 + (elemSize false demoE0 - (150 + elemSize false demoE1))⟩)
         else if (0 : ℚ) + 150 - 0 ≤ (200 : ℚ) then
           (0 + 150 + (elemSize false demoE0 - (150 + elemSize false demoE1)),
             ⟨100, 200 + (elemSize false demoE0 - (150 + elemSize false demoE1))⟩)
         else (0 + 150, ⟨100, 200⟩)) :=
  (C5_sticky_start_step 200 false 200 (some demoE0)
    ⟨demoE1, 150, some ⟨some 0, none⟩⟩ 0 ⟨100, 200⟩ 0 none).1 rfl demoE0 rfl

/-- Claim C6.  When every sticky node's slack is non-negative
(sticky-start: `parentSize - (offset + size) ≥ 0`; sticky-end:
`offset ≥ 0`), `computeStickinessIntoFullRange` returns a range with
`start' ≥ start` and `end' - start' ≥ end - start` — it never moves the
range earlier and never shrinks its duration — and the duration grows
STRICTLY when some sticky-start ancestor's stuck start falls inside the
working range current at its loop iteration with strictly positive
slack. -/
theorem C6_sticky_monotone :
    ∀ (offsetTree : List OffsetNode) (aS aE V : ℚ) (isH : Bool),
      treeSlackOk isH none offsetTree →
      aS ≤ (computeStickinessIntoFullRange offsetTree aS aE V isH).start ∧
      aE - aS ≤ (computeStickinessIntoFullRange offsetTree aS aE V isH).end_
        - (computeStickinessIntoFullRange offsetTree aS aE V isH).start ∧
      (∀ (l1 : List OffsetNode) (node : OffsetNode) (l2 : List OffsetNode)
        (p : Element) (s : ℚ),
        offsetTree = l1 ++ node :: l2 →
        lastElem none l1 = some p →
        node.sticky = some ⟨some s, none⟩ →
        (stickyGo V isH aE none l1 (0, ⟨aS, aE⟩)).2.start
          ≤ (stickyGo V isH aE none l1 (0, ⟨aS, aE⟩)).1 + node.offset - s →
        (stickyGo V isH aE none l1 (0, ⟨aS, aE⟩)).1 + node.offset - s
          ≤ (stickyGo V isH aE none l1 (0, ⟨aS, aE⟩)).2.end_ →
        0 < elemSize isH p - (node.offset + elemSize isH node.element) →
        aE - aS < (computeStickinessIntoFullRange offsetTree aS aE V isH).end_
          - (computeStickinessIntoFullRange offsetTree aS aE V isH).start) := by
  intro tree aS aE V isH hok
  have hmono := stickyGo_mono V aE isH tree none 0 ⟨aS, aE⟩ hok
  refine ⟨hmono.1, hmono.2, ?_⟩
  intro l1 node l2 p s htree hlast hs hin1 hin2 hslack
  subst htree
  obtain ⟨hok1, hok2⟩ := treeSlackOk_append l1 (node :: l2) none hok
  rw [hlast] at hok2
  obtain ⟨_, hokrest⟩ := hok2
  rcases hg1 : stickyGo V isH aE none l1 (0, ⟨aS, aE⟩) with ⟨a1, r1⟩
  rw [hg1] at hin1 hin2
  dsimp only at hin1 hin2
  have hmono1 := stickyGo_mono V aE isH l1 none 0 ⟨aS, aE⟩ hok1
  rw [hg1] at hmono1
  rcases hstep : stickyStep V isH aE (some p) node (a1, r1) with ⟨a2, r2⟩
  have hspan2 := stickyStep_inside_span V aE isH p node s a1 r1 hs hin1 hin2
  rw [hstep] at hspan2
  have htail := stickyGo_mono V aE isH l2 (some node.element) a2 r2
    hokrest
  have hfull : computeStickinessIntoFullRange (l1 ++ node :: l2) aS aE V isH
      = (stickyGo V isH aE (some node.element) l2 (a2, r2)).2 := by
    unfold computeStickinessIntoFullRange
    rw [stickyGo_append l1 (node :: l2) none (0, ⟨aS, aE⟩), hlast, hg1]
    show (stickyGo V isH aE (some node.element) l2
      (stickyStep V isH aE (some p) node (a1, r1))).2 = _
    rw [hstep]
  rw [hfull]
  dsimp only at hspan2 ⊢
  have := hmono1.2
  dsimp only at this
  linarith [htail.2]

/-- Claim C6, witness: the monotone conclusion at the concrete sticky
tree `demoTree` with raw range `[100, 200]`. -/
theorem C6_sticky_monotone_witness :
    (100 : ℚ) ≤ (computeStickinessIntoFullRange demoTree 100 200 200 false).start ∧
    (200 : ℚ) - 100
      ≤ (computeStickinessIntoFullRange demoTree 100 200 200 false).end_
        - (computeStickinessIntoFullRange demoTree 100 200 200 false).start := by
  have hok : treeSlackOk false none demoTree := by
    refine ⟨?_, ?_, trivial⟩
    · intro st p hst hp
      simp [demoTree] at hst
    · intro st p hst hp
      obtain rfl : StickyOffsets.mk (some 0) none = st := by
        simpa [demoTree] using hst
      obtain rfl : demoE0 = p := by
        simpa using hp
      refine ⟨fun _ => ?_, fun h => absurd rfl h⟩
      norm_num [demoTree, elemSize, demoE0, demoE1, Element.offsetHeight]
  have h := C6_sticky_monotone demoTree 100 200 200 false hok
  exact ⟨h.1, h.2.1⟩

/-- Claim C9.  In the built controller's tick loop, an enabled `isFixed`
scene whose effect is invoked in a tick has its `disabled` flag set to
`true` immediately after the invocation, and consequently over any
sequence of ticks the effect of an `isFixed` scene is invoked at most
once. -/
theorem C9_isFixed_self_disable :
    (∀ (st : TickState) (p vp : ℚ) (i : ℕ) (sc : TickScene) (x : ℚ × ℚ),
      st.scenes[i]? = some sc → sc.isFixed = true →
      (tick st p vp).2[i]? = some (some x) →
      (tick st p vp).1.scenes[i]? = some { sc with disabled := true }) ∧
    (∀ (inputs : List (ℚ × ℚ)) (st : TickState) (i : ℕ) (sc : TickScene),
      st.scenes[i]? = some sc → sc.isFixed = true →
      countInvocations i (runTicks st inputs).2 ≤ 1) := by
  have hstep : ∀ (st : TickState) (p vp : ℚ) (i : ℕ) (sc : TickScene)
      (x : ℚ × ℚ),
      st.scenes[i]? = some sc → sc.isFixed = true →
      (tick st p vp).2[i]? = some (some x) →
      (tick st p vp).1.scenes[i]? = some { sc with disabled := true } := by
    intro st p vp i sc x h hfix hinv
    obtain ⟨h1, h2⟩ := tick_scenes_get st p vp i
    rw [h2, h] at hinv
    rw [h1, h]
    simp only [Option.map_some'] at hinv ⊢
    by_cases hb : st.lastP = some (jsToFixed1 p)
    · rw [if_pos hb] at hinv
      simp at hinv
    · rw [if_neg hb] at hinv ⊢
      unfold sceneTick at hinv ⊢
      by_cases hd : sc.disabled = true
      · rw [if_pos hd] at hinv
        simp at hinv
      · rw [if_neg hd] at hinv ⊢
        dsimp only at hinv ⊢
        rw [if_pos hfix]
  refine ⟨hstep, ?_⟩
  intro inputs
  induction inputs with
  | nil =>
    intro st i sc h hfix
    exact Nat.zero_le 1
  | cons pv rest ih =>
    intro st i sc h hfix
    obtain ⟨p, vp⟩ := pv
    obtain ⟨h1, h2⟩ := tick_scenes_get st p vp i
    have hshow : (runTicks st ((p, vp) :: rest)).2
        = (tick st p vp).2 :: (runTicks (tick st p vp).1 rest).2 := rfl
    rw [hshow, countInvocations_cons]
    by_cases hb : st.lastP = some (jsToFixed1 p)
    · -- bailed tick: nothing invoked, scene unchanged
      have hnew : (tick st p vp).1.scenes[i]? = some sc := by
        rw [h1, h]
        simp [hb]
      rw [h2, h]
      simp only [Option.map_some', if_pos hb]
      rw [Nat.zero_add]
      exact ih (tick st p vp).1 i sc hnew hfix
    · by_cases hd : sc.disabled = true
      · -- disabled scene: skipped, unchanged
        obtain ⟨h1', h2'⟩ := tick_disabled st p vp h hd
        rw [h2']
        dsimp only
        rw [Nat.zero_add]
        exact ih (tick st p vp).1 i sc h1' hfix
      · -- enabled isFixed scene: invoked once, then disabled for good
        have hinv : (tick st p vp).2[i]?
            = some (some (calcProgress (jsToFixed1 p) sc.start sc.end_
                sc.duration, jsToFixed4 vp)) := by
          rw [h2, h]
          simp only [Option.map_some', if_neg hb]
          unfold sceneTick
          rw [if_neg hd]
        have hnew := hstep st p vp i sc _ h hfix hinv
        have htail : countInvocations i (runTicks (tick st p vp).1 rest).2 = 0 :=
          runTicks_disabled rest (tick st p vp).1 i { sc with disabled := true }
            hnew rfl
        rw [hinv, htail]

/-- Claim C9, witness: a run of two ticks over one enabled `isFixed`
scene invokes its effect at most once. -/
theorem C9_isFixed_self_disable_witness :
    countInvocations 0
      (runTicks ⟨[⟨0, 10, 10, false, true⟩], none⟩ [(5, 0), (6, 0)]).2 ≤ 1 :=
  C9_isFixed_self_disable.2 [(5, 0), (6, 0)] ⟨[⟨0, 10, 10, false, true⟩], none⟩
    0 ⟨0, 10, 10, false, true⟩ rfl rfl

end Fizban
